import Mathlib

/-!
Shallow embedding of the approval/resource workflow of the
chemical-formula management backend (Express + MySQL service layer).

The database is modelled as explicit lists of rows; each service method
becomes a pure state transformer on that database value.  SQL
`NOW()` timestamps are passed in as a `now : Nat` parameter, and MySQL
`AUTO_INCREMENT` columns are modelled by explicit `next…Id` counters.
-/

namespace CapacityChem

/-- Resource category enum, `resources.category` column
(`formulas | quotes | knowledge | other`). -/
inductive Category
  | formulas
  | quotes
  | knowledge
  | other
deriving DecidableEq, Repr

/-- Resource approval status enum, `resources.approval_status` column
(`Approved | Pending | Rejected`). -/
inductive ApprovalStatus
  | approved
  | pending
  | rejected
deriving DecidableEq, Repr

/-- Approval decision enum, `approvals.decision` column
(`Pending | Approved | Rejected | Returned`). -/
inductive Decision
  | pending
  | approved
  | rejected
  | returned
deriving DecidableEq, Repr

/-- One row of the `resources` table. -/
structure ResourceRow where
  resource_id : Nat
  file_name : String
  file_type : String
  file_size : String
  file_url : String
  category : Category
  uploaded_by : Nat
  uploaded_on : Nat
  description : Option String
  approval_status : ApprovalStatus
  approved_by : Option Nat
  approved_on : Option Nat
deriving DecidableEq, Repr

/-- One row of the `approvals` table.  `entity_type` is kept as the raw
string the code stores (`"Resource"`, `"Formula"`, `"Quote"`). -/
structure ApprovalRow where
  approval_id : Nat
  entity_type : String
  entity_id : Nat
  approver_id : Nat
  decision : Decision
  decision_date : Nat
  comments : Option String
deriving DecidableEq, Repr

/-- One row of the `formulas` table.  Numeric payload columns are carried
as rationals; the services never compute with them. -/
structure FormulaRow where
  formula_id : Nat
  formula_name : String
  created_by : Nat
  density : Rat
  total_cost : Rat
  margin : Rat
  container_cost : Rat
  status : String
deriving DecidableEq, Repr

/-- One row of the `formula_components` table. -/
structure ComponentRow where
  id : Nat
  formula_id : Nat
  chemical_name : String
  percentage : Rat
  cost_per_lb : Rat
  hazard_class : String
deriving DecidableEq, Repr

/-- The database state: the tables the approval/formula workflow touches,
plus the auto-increment counters. -/
structure Db where
  resources : List ResourceRow
  approvals : List ApprovalRow
  formulas : List FormulaRow
  formula_components : List ComponentRow
  nextResourceId : Nat
  nextApprovalId : Nat
  nextFormulaId : Nat
  nextComponentId : Nat
deriving DecidableEq, Repr

/-- Fresh database. -/
def emptyDb : Db :=
  { resources := []
    approvals := []
    formulas := []
    formula_components := []
    nextResourceId := 1
    nextApprovalId := 1
    nextFormulaId := 1
    nextComponentId := 1 }

/-- Body of `POST /api/resources` / the row data assembled by the upload
controller (TS interface `CreateResourceRequest`).  The optional
`approval_status` field of the TS interface is kept although
`createResource` ignores it and computes its own status. -/
structure CreateResourceRequest where
  file_name : String
  file_type : String
  file_size : String
  file_url : String
  category : Category
  uploaded_by : Nat
  description : Option String
  approval_status : Option ApprovalStatus := none
deriving DecidableEq, Repr

/-- The admin role check of `ResourceService.createResource`:
`userRole === 'capacity_admin' || userRole === 'nsight_admin'`. -/
def isAdminRole (userRole : Option String) : Bool :=
  userRole = some "capacity_admin" ∨ userRole = some "nsight_admin"

/-- Embedding of `ResourceService.createResource(data, userRole?)`.
Returns the updated database and the `insertId` of the new resource row.
Admin roles and the knowledge category auto-approve; otherwise the row is
created Pending and one Pending approvals row is inserted with the
uploader id as placeholder approver. -/
def createResource (data : CreateResourceRequest) (userRole : Option String)
    (now : Nat) (db : Db) : Db × Nat :=
  let auto : Bool :=
    if isAdminRole userRole then true
    else if data.category = Category.knowledge then true
    else false
  let approvalStatus := if auto then ApprovalStatus.approved else ApprovalStatus.pending
  let approvedBy : Option Nat := if auto then some data.uploaded_by else none
  let approvedOn : Option Nat := if auto then some now else none
  let rid := db.nextResourceId
  let row : ResourceRow :=
    { resource_id := rid
      file_name := data.file_name
      file_type := data.file_type
      file_size := data.file_size
      file_url := data.file_url
      category := data.category
      uploaded_by := data.uploaded_by
      uploaded_on := now
      description := data.description
      approval_status := approvalStatus
      approved_by := approvedBy
      approved_on := approvedOn }
  let db1 := { db with resources := db.resources ++ [row], nextResourceId := rid + 1 }
  if approvalStatus = ApprovalStatus.pending then
    let arow : ApprovalRow :=
      { approval_id := db1.nextApprovalId
        entity_type := "Resource"
        entity_id := rid
        approver_id := data.uploaded_by
        decision := Decision.pending
        decision_date := now
        comments := some ("Resource upload pending approval: " ++ data.file_name) }
    ({ db1 with approvals := db1.approvals ++ [arow]
                nextApprovalId := db1.nextApprovalId + 1 }, rid)
  else
    (db1, rid)

/-- Row effect of the first UPDATE of `approveResource` / `rejectResource`
(`SET approval_status/approved_by/approved_on WHERE resource_id = ?`),
parameterized by the written status. -/
def decideResRow (status : ApprovalStatus) (resourceId approverId now : Nat)
    (r : ResourceRow) : ResourceRow :=
  if r.resource_id = resourceId then
    { r with approval_status := status
             approved_by := some approverId
             approved_on := some now }
  else r

/-- Row effect of the second UPDATE of `approveResource` / `rejectResource`
(`SET decision/approver_id/decision_date WHERE entity_type = 'Resource'
AND entity_id = ? AND decision = 'Pending'`). -/
def decideAppRow (d : Decision) (resourceId approverId now : Nat)
    (a : ApprovalRow) : ApprovalRow :=
  if a.entity_type = "Resource" ∧ a.entity_id = resourceId ∧ a.decision = Decision.pending then
    { a with decision := d
             approver_id := approverId
             decision_date := now }
  else a

/-- Embedding of `ResourceService.approveResource(resourceId, approverId)`:
an unconditional UPDATE of the resource row by id, then an UPDATE of the
approvals rows matching `entity_type = 'Resource' AND entity_id = ? AND
decision = 'Pending'`. -/
def approveResource (resourceId approverId now : Nat) (db : Db) : Db :=
  { db with
    resources := db.resources.map
      (decideResRow ApprovalStatus.approved resourceId approverId now)
    approvals := db.approvals.map
      (decideAppRow Decision.approved resourceId approverId now) }

/-- Embedding of `ResourceService.rejectResource(resourceId, approverId)`:
same two UPDATE statements as approval, writing Rejected. -/
def rejectResource (resourceId approverId now : Nat) (db : Db) : Db :=
  { db with
    resources := db.resources.map
      (decideResRow ApprovalStatus.rejected resourceId approverId now)
    approvals := db.approvals.map
      (decideAppRow Decision.rejected resourceId approverId now) }

/-- Body of `PUT /api/resources/:id` (TS `UpdateResourceRequest`); the
service applies only these three fields. -/
structure UpdateResourceRequest where
  file_name : Option String
  category : Option Category
  description : Option String
deriving DecidableEq, Repr

/-- Embedding of `ResourceService.updateResource`: partial UPDATE of the
resource row by field presence; never touches the approvals table. -/
def updateResource (resourceId : Nat) (data : UpdateResourceRequest) (db : Db) : Db :=
  { db with
    resources := db.resources.map fun r =>
      if r.resource_id = resourceId then
        { r with
          file_name := data.file_name.getD r.file_name
          category := data.category.getD r.category
          description := match data.description with
            | some d => some d
            | none => r.description }
      else r }

/-- Embedding of `ResourceService.deleteResource`:
`DELETE FROM resources WHERE resource_id = ?`. -/
def deleteResource (resourceId : Nat) (db : Db) : Db :=
  { db with resources := db.resources.filter fun r => ¬ r.resource_id = resourceId }

/-- Embedding of `ResourceService.getAllResources(filters?)`: the WHERE
clause always contains `approval_status = 'Approved'`, plus the optional
category / uploaded_by / search filters.  Result ordering is irrelevant to
the properties proved here, so the ORDER BY clause is not modelled. -/
structure ResourceFilters where
  category : Option Category
  uploaded_by : Option Nat
  search : Option String
deriving DecidableEq, Repr

/-- SQL substring containment, the semantics of `LIKE '%needle%'`. -/
def strContains (hay needle : String) : Bool :=
  (List.range (hay.data.length + 1)).any fun i => needle.data.isPrefixOf (hay.data.drop i)

/-- Whether a resource row matches the LIKE search over file_name and
description (a NULL description never matches). -/
def matchesSearch (r : ResourceRow) (s : String) : Bool :=
  strContains r.file_name s ||
    (match r.description with
     | some d => strContains d s
     | none => false)

def getAllResources (filters : ResourceFilters) (db : Db) : List ResourceRow :=
  db.resources.filter fun r =>
    decide (r.approval_status = ApprovalStatus.approved)
    && (match filters.category with | some c => decide (r.category = c) | none => true)
    && (match filters.uploaded_by with | some u => decide (r.uploaded_by = u) | none => true)
    && (match filters.search with | some s => matchesSearch r s | none => true)

/-- Embedding of `ResourceService.getPendingResources`:
`WHERE approval_status = 'Pending'`. -/
def getPendingResources (db : Db) : List ResourceRow :=
  db.resources.filter fun r => r.approval_status = ApprovalStatus.pending

/-- Body of `POST /api/approvals` (TS `CreateApprovalRequest`); the
service stores `data.decision || 'Pending'`. -/
structure CreateApprovalRequest where
  entity_type : String
  entity_id : Nat
  approver_id : Nat
  decision : Option Decision
  comments : Option String
deriving DecidableEq, Repr

/-- Embedding of `ApprovalService.createApproval`: a plain INSERT of the
client-supplied row, decision defaulting to Pending.  No check for an
existing Pending approval of the same entity is performed. -/
def createApproval (data : CreateApprovalRequest) (now : Nat) (db : Db) : Db × Nat :=
  let arow : ApprovalRow :=
    { approval_id := db.nextApprovalId
      entity_type := data.entity_type
      entity_id := data.entity_id
      approver_id := data.approver_id
      decision := data.decision.getD Decision.pending
      decision_date := now
      comments := data.comments }
  ({ db with approvals := db.approvals ++ [arow]
             nextApprovalId := db.nextApprovalId + 1 }, db.nextApprovalId)

/-- Body of `PUT /api/approvals/:id` (TS `UpdateApprovalRequest`). -/
structure UpdateApprovalRequest where
  decision : Decision
  comments : Option String
deriving DecidableEq, Repr

/-- Row effect of the UPDATE in `updateApproval`
(`SET decision = ?, comments = ?, decision_date = NOW() WHERE approval_id = ?`). -/
def updateAppRow (approvalId : Nat) (data : UpdateApprovalRequest) (now : Nat)
    (a : ApprovalRow) : ApprovalRow :=
  if a.approval_id = approvalId then
    { a with decision := data.decision
             comments := data.comments
             decision_date := now }
  else a

/-- Embedding of `ApprovalService.updateApproval`: overwrites decision,
comments and decision_date of the row by primary key, with no validation
of the supplied decision value. -/
def updateApproval (approvalId : Nat) (data : UpdateApprovalRequest) (now : Nat)
    (db : Db) : Db :=
  { db with approvals := db.approvals.map (updateAppRow approvalId data now) }

/-- Embedding of `ApprovalService.deleteApproval`:
`DELETE FROM approvals WHERE approval_id = ?`. -/
def deleteApproval (approvalId : Nat) (db : Db) : Db :=
  { db with approvals := db.approvals.filter fun a => ¬ a.approval_id = approvalId }

/-! ## Formula service (transactional create and delete) -/

/-- One component of a formula creation request
(TS `CreateFormulaComponentRequest`). -/
structure CreateFormulaComponentRequest where
  chemical_name : String
  percentage : Rat
  cost_per_lb : Rat
  hazard_class : String
deriving DecidableEq, Repr

/-- Body of `POST /api/formulas` (TS `CreateFormulaRequest` with the
optional components array). -/
structure CreateFormulaRequest where
  formula_name : String
  created_by : Nat
  density : Rat
  total_cost : Rat
  margin : Rat
  container_cost : Rat
  status : Option String
  components : List CreateFormulaComponentRequest
deriving DecidableEq, Repr

/-- The formula row the parent INSERT of `createFormula` produces. -/
def mkFormulaRow (fid : Nat) (data : CreateFormulaRequest) : FormulaRow :=
  { formula_id := fid
    formula_name := data.formula_name
    created_by := data.created_by
    density := data.density
    total_cost := data.total_cost
    margin := data.margin
    container_cost := data.container_cost
    status := data.status.getD "Draft" }

/-- The component rows the child INSERT loop of `createFormula` produces,
with consecutive auto-increment ids starting at `cid0`. -/
def mkComponentRows (fid cid0 : Nat) : List CreateFormulaComponentRequest → List ComponentRow
  | [] => []
  | c :: rest =>
      { id := cid0
        formula_id := fid
        chemical_name := c.chemical_name
        percentage := c.percentage
        cost_per_lb := c.cost_per_lb
        hazard_class := c.hazard_class } :: mkComponentRows fid (cid0 + 1) rest

/-- The component INSERT loop inside the transaction of `createFormula`.
Statement `i` of the connection fails when `oracle i = true`; a failure
aborts the remaining statements (`none`). -/
def insertComponents (fid : Nat) (oracle : Nat → Bool) :
    List CreateFormulaComponentRequest → Nat → Db → Option Db
  | [], _, db => some db
  | c :: rest, i, db =>
      if oracle i then none
      else
        insertComponents fid oracle rest (i + 1)
          { db with
            formula_components := db.formula_components ++
              [{ id := db.nextComponentId
                 formula_id := fid
                 chemical_name := c.chemical_name
                 percentage := c.percentage
                 cost_per_lb := c.cost_per_lb
                 hazard_class := c.hazard_class }]
            nextComponentId := db.nextComponentId + 1 }

/-- Embedding of `FormulaService.createFormula`: BEGIN, INSERT parent,
INSERT each component, COMMIT; any statement failure rolls the whole
connection back to the incoming state.  The SQL failure oracle says which
statement index (0 = parent insert, i+1 = component i) fails.  Returns
the committed database and the new id, or the untouched database on
rollback. -/
def createFormula (data : CreateFormulaRequest) (oracle : Nat → Bool)
    (db : Db) : Db × Option Nat :=
  if oracle 0 then (db, none)
  else
    let fid := db.nextFormulaId
    let db1 := { db with formulas := db.formulas ++ [mkFormulaRow fid data]
                         nextFormulaId := fid + 1 }
    match insertComponents fid oracle data.components 1 db1 with
    | some db2 => (db2, some fid)
    | none => (db, none)

/-- Embedding of `FormulaService.deleteFormula`: BEGIN, DELETE the
components of the formula, DELETE the formula row, COMMIT; a failure of
either DELETE rolls back to the incoming state.  The returned flag is
`affectedRows > 0` of the formula DELETE. -/
def deleteFormula (fid : Nat) (oracle : Nat → Bool) (db : Db) : Db × Bool :=
  if oracle 0 || oracle 1 then (db, false)
  else
    ({ db with
       formula_components := db.formula_components.filter fun c => ¬ c.formula_id = fid
       formulas := db.formulas.filter fun f => ¬ f.formula_id = fid },
     decide (0 < (db.formulas.filter fun f => f.formula_id = fid).length))

/-! ## Pagination and sort-field handling of the list endpoints -/

/-- The sortBy allow-list of `UserService.getAllUsers`. -/
def userValidSortFields : List String :=
  ["username", "email", "status", "last_login", "created_on"]

/-- The effective ORDER BY field of `UserService.getAllUsers`: default
`username`, the legacy `name` mapped to `username`, anything outside the
allow-list silently replaced by `username`. -/
def getAllUsersSortField (sortBy : Option String) : String :=
  let s0 := sortBy.getD "username"
  let s1 := if s0 = "name" then "username" else s0
  if userValidSortFields.contains s1 then s1 else "username"

/-- The effective ORDER BY field of `FormulaService.getAllFormulas`: the
raw parameter (default `created_on`) is interpolated into the query with
no allow-list check. -/
def getAllFormulasSortField (sortBy : Option String) : String :=
  sortBy.getD "created_on"

/-- The pagination object both list services return. -/
structure Pagination where
  page : Nat
  limit : Nat
  total : Nat
  totalPages : Nat
deriving DecidableEq, Repr

/-- Math.ceil(a / b) on naturals (for b > 0), as computed by
`Math.ceil(total / limit)` in both list services. -/
def ceilDiv (a b : Nat) : Nat := (a + b - 1) / b

/-- The shared pagination shape of the list services: COUNT the filtered
rows, then LIMIT/OFFSET with offset = (page - 1) * limit, and report
totalPages = ceil(total / limit). -/
def paginate {α : Type} (rows : List α) (page limit : Nat) : List α × Pagination :=
  ((rows.drop ((page - 1) * limit)).take limit,
   { page := page
     limit := limit
     total := rows.length
     totalPages := ceilDiv rows.length limit })

/-! ## Controller layer -/

/-- A JSON value as the Express body parser hands it to a controller
(restricted to the scalar shapes relevant here). -/
inductive JsVal
  | vnull
  | vnum (n : Int)
  | vstr (s : String)
deriving DecidableEq, Repr

/-- JavaScript truthiness of a body field, the test `if (!approver_id)`
performs: null, 0 and the empty string are falsy. -/
def truthy : JsVal → Bool
  | JsVal.vnull => false
  | JsVal.vnum n => ¬ n = 0
  | JsVal.vstr s => ¬ s = ""

/-- Outcome of the reject controller before any SQL runs: either the 400
short-circuit, or the call into `ResourceService.rejectResource` with the
unvalidated body value. -/
inductive RejectOutcome
  | badRequest
  | serviceCall (resourceId : Nat) (approver : JsVal)
deriving DecidableEq, Repr

/-- Embedding of the `rejectResource` controller gate: destructure
`approver_id` from the body and return 400 only when it is missing or
falsy; any truthy value, numeric or not, is passed to the service. -/
def rejectResourceController (resourceId : Nat) (body_approver : Option JsVal) :
    RejectOutcome :=
  match body_approver with
  | none => RejectOutcome.badRequest
  | some v =>
      if truthy v then RejectOutcome.serviceCall resourceId v
      else RejectOutcome.badRequest

/-- The multer file record the upload controller reads
(originalname, mimetype, generated filename, size). -/
structure MulterFile where
  originalname : String
  mimetype : String
  filename : String
  size : Nat
deriving DecidableEq, Repr

/-- The coarse file-type label the upload controller derives from the
MIME type with `String.includes` tests. -/
def fileTypeFromMime (m : String) : String :=
  if strContains m "pdf" then "PDF Document"
  else if strContains m "excel" || strContains m "spreadsheet" then "Excel Spreadsheet"
  else if strContains m "word" || strContains m "document" then "Word Document"
  else if strContains m "text" then "Text File"
  else if strContains m "image" then "Image"
  else "Unknown"

/-- URL path segment of a category bucket. -/
def Category.dir : Category → String
  | Category.formulas => "formulas"
  | Category.quotes => "quotes"
  | Category.knowledge => "knowledge"
  | Category.other => "other"

/-- Embedding of the `uploadResource` controller
(`POST /api/resources/upload`): it assembles the resource data from the
multer file and calls `resourceService.createResource(resourceData)` with
a single argument, so the service sees `userRole = undefined` whatever
the authenticated actor's role is (`actorRole` is received from the auth
middleware but never forwarded).  `fileSizeLabel` stands for the
`formatFileSize(file.size)` string, whose floating-point formatting does
not affect the approval logic.  `baseUrl` is the protocol-and-host prefix
of `getFileUrl`. -/
def uploadResource (actorRole : Option String) (file : MulterFile)
    (category : Category) (uploaded_by : Nat) (description : Option String)
    (fileSizeLabel baseUrl : String) (now : Nat) (db : Db) : Db × Nat :=
  let resourceData : CreateResourceRequest :=
    { file_name := file.originalname
      file_type := fileTypeFromMime file.mimetype
      file_size := fileSizeLabel
      file_url := baseUrl ++ "/uploads/" ++ category.dir ++ "/" ++ file.filename
      category := category
      uploaded_by := uploaded_by
      description := description }
  createResource resourceData none now db

/-! ## The operations of the system as a step relation -/

/-- The mutating operations of the approval workflow API surface. -/
inductive Op
  | createRes (data : CreateResourceRequest) (userRole : Option String) (now : Nat)
  | approveRes (resourceId approverId now : Nat)
  | rejectRes (resourceId approverId now : Nat)
  | updateRes (resourceId : Nat) (data : UpdateResourceRequest)
  | deleteRes (resourceId : Nat)
  | createApp (data : CreateApprovalRequest) (now : Nat)
  | updateApp (approvalId : Nat) (data : UpdateApprovalRequest) (now : Nat)
  | deleteApp (approvalId : Nat)

/-- Effect of one operation on the database. -/
def applyOp : Op → Db → Db
  | Op.createRes data userRole now, db => (createResource data userRole now db).1
  | Op.approveRes rid aid now, db => approveResource rid aid now db
  | Op.rejectRes rid aid now, db => rejectResource rid aid now db
  | Op.updateRes rid data, db => updateResource rid data db
  | Op.deleteRes rid, db => deleteResource rid db
  | Op.createApp data now, db => (createApproval data now db).1
  | Op.updateApp aid data now, db => updateApproval aid data now db
  | Op.deleteApp aid, db => deleteApproval aid db

/-- States reachable from the fresh database using only operations
satisfying `allowed`. -/
inductive ReachableVia (allowed : Op → Prop) : Db → Prop
  | init : ReachableVia allowed emptyDb
  | step {db : Db} (h : ReachableVia allowed db) (op : Op) (hop : allowed op) :
      ReachableVia allowed (applyOp op db)

/-- Whether an operation is the generic approvals-table INSERT endpoint
(`POST /api/approvals`). -/
def Op.isGenericApprovalInsert : Op → Prop
  | Op.createApp _ _ => True
  | _ => False

/-- Whether an operation carries a client-supplied `Returned` decision
into the approvals table. -/
def Op.suppliesReturned : Op → Prop
  | Op.createApp data _ => data.decision = some Decision.returned
  | Op.updateApp _ data _ => data.decision = Decision.returned
  | _ => False

/-! ## Sample data for witnesses -/

/-- A Pending resource row as `createResource` produces for a regular
user upload. -/
def sampleResourceRow : ResourceRow :=
  { resource_id := 1
    file_name := "a.pdf"
    file_type := "PDF Document"
    file_size := "1 KB"
    file_url := "http://h/uploads/formulas/a.pdf"
    category := Category.formulas
    uploaded_by := 7
    uploaded_on := 0
    description := none
    approval_status := ApprovalStatus.pending
    approved_by := none
    approved_on := none }

/-- The matching Pending approvals row. -/
def sampleApprovalRow : ApprovalRow :=
  { approval_id := 1
    entity_type := "Resource"
    entity_id := 1
    approver_id := 7
    decision := Decision.pending
    decision_date := 0
    comments := none }

/-- A database holding one Pending resource and its approval row. -/
def sampleDb : Db :=
  { emptyDb with
    resources := [sampleResourceRow]
    approvals := [sampleApprovalRow]
    nextResourceId := 2
    nextApprovalId := 2 }

/-! ## C1: approveResource is unconditional on the resource row,
touches only matching Pending approval rows, and is idempotent -/

/-- C1: for every resource id and approver id, `approveResource` sets the
resource row to Approved with the given approver unconditionally (no
Pending check), updates approvals rows only where entity_type, entity_id
and decision = Pending match (all other rows are kept as they are), is a
no-op on the approvals table when no Pending row matches (the
already-Approved case), and repeating the call overwrites the resource
row with identical values: the outcome is idempotent. -/
theorem approveResource_unconditional_idempotent (rid aid now : Nat) (db : Db) :
    (∀ r ∈ (approveResource rid aid now db).resources, r.resource_id = rid →
        r.approval_status = ApprovalStatus.approved ∧
        r.approved_by = some aid ∧ r.approved_on = some now) ∧
    (∀ a ∈ db.approvals,
        ¬ (a.entity_type = "Resource" ∧ a.entity_id = rid ∧ a.decision = Decision.pending) →
        a ∈ (approveResource rid aid now db).approvals) ∧
    ((∀ a ∈ db.approvals,
        ¬ (a.entity_type = "Resource" ∧ a.entity_id = rid ∧ a.decision = Decision.pending)) →
        (approveResource rid aid now db).approvals = db.approvals) ∧
    approveResource rid aid now (approveResource rid aid now db) =
      approveResource rid aid now db := by
  refine ⟨?_, ?_, ?_, ?_⟩
  · intro r hr hrid
    rcases List.mem_map.1 hr with ⟨r0, _, rfl⟩
    unfold decideResRow at hrid ⊢
    by_cases h : r0.resource_id = rid
    · simp [h]
    · exfalso
      apply h
      simpa [h] using hrid
  · intro a ha hna
    refine List.mem_map.2 ⟨a, ha, ?_⟩
    simp [decideAppRow, hna]
  · intro hall
    show db.approvals.map _ = db.approvals
    rw [List.map_congr_left (g := id), List.map_id]
    intro a ha
    simp [decideAppRow, hall a ha]
  · have h1 : ∀ l : List ResourceRow,
        (l.map (decideResRow ApprovalStatus.approved rid aid now)).map
            (decideResRow ApprovalStatus.approved rid aid now) =
          l.map (decideResRow ApprovalStatus.approved rid aid now) := by
      intro l
      rw [List.map_map]
      refine List.map_congr_left fun r _ => ?_
      by_cases h : r.resource_id = rid <;>
        simp [Function.comp, decideResRow, h]
    have h2 : ∀ l : List ApprovalRow,
        (l.map (decideAppRow Decision.approved rid aid now)).map
            (decideAppRow Decision.approved rid aid now) =
          l.map (decideAppRow Decision.approved rid aid now) := by
      intro l
      rw [List.map_map]
      refine List.map_congr_left fun a _ => ?_
      by_cases h : a.entity_type = "Resource" ∧ a.entity_id = rid ∧ a.decision = Decision.pending
      · simp [Function.comp, decideAppRow, h]
      · simp [Function.comp, decideAppRow, h]
    exact congrArg₂
      (fun x y => Db.mk x y db.formulas db.formula_components db.nextResourceId
        db.nextApprovalId db.nextFormulaId db.nextComponentId)
      (h1 db.resources) (h2 db.approvals)

/-- Witness for C1 at a concrete database: the approved row of
`approveResource 1 9 5 sampleDb` carries the approver, and approving a
resource id with no Pending approval row (id 3) leaves the approvals
table unchanged. -/
theorem approveResource_unconditional_idempotent_witness :
    ({ sampleResourceRow with
        approval_status := ApprovalStatus.approved
        approved_by := some 9
        approved_on := some 5 } : ResourceRow).approval_status =
      ApprovalStatus.approved ∧
    (approveResource 3 9 5 sampleDb).approvals = sampleDb.approvals := by
  constructor
  · exact ((approveResource_unconditional_idempotent 1 9 5 sampleDb).1 _
      (by decide) (by decide)).1
  · exact (approveResource_unconditional_idempotent 3 9 5 sampleDb).2.2.1 (by decide)

/-! ## C2, C3, C4: the creation-time approval policy of createResource -/

/-- A regular (non-knowledge) creation request used by witnesses. -/
def sampleCreateReq : CreateResourceRequest :=
  { file_name := "a.pdf"
    file_type := "PDF Document"
    file_size := "1 KB"
    file_url := "http://h/uploads/formulas/a.pdf"
    category := Category.formulas
    uploaded_by := 7
    description := none }

/-- C2: a creation request whose category is not knowledge and whose
actor role is not in the admin set produces a Pending resource row and
exactly one Pending approvals row with entity_type Resource and the
uploader as placeholder approver id. -/
theorem createResource_regular_pending (data : CreateResourceRequest)
    (userRole : Option String) (now : Nat) (db : Db)
    (hrole : isAdminRole userRole = false)
    (hcat : ¬ data.category = Category.knowledge) :
    createResource data userRole now db =
      ({ db with
          resources := db.resources ++
            [{ resource_id := db.nextResourceId
               file_name := data.file_name
               file_type := data.file_type
               file_size := data.file_size
               file_url := data.file_url
               category := data.category
               uploaded_by := data.uploaded_by
               uploaded_on := now
               description := data.description
               approval_status := ApprovalStatus.pending
               approved_by := none
               approved_on := none }]
          approvals := db.approvals ++
            [{ approval_id := db.nextApprovalId
               entity_type := "Resource"
               entity_id := db.nextResourceId
               approver_id := data.uploaded_by
               decision := Decision.pending
               decision_date := now
               comments := some ("Resource upload pending approval: " ++ data.file_name) }]
          nextResourceId := db.nextResourceId + 1
          nextApprovalId := db.nextApprovalId + 1 },
       db.nextResourceId) := by
  unfold createResource
  simp [hrole, hcat]

/-- Witness for C2: a concrete regular-user upload leaves exactly one
approvals row. -/
theorem createResource_regular_pending_witness :
    (createResource sampleCreateReq (some "user") 3 emptyDb).1.approvals.length = 1 := by
  rw [createResource_regular_pending sampleCreateReq (some "user") 3 emptyDb
    (by decide) (by decide)]
  decide

/-- C3: a knowledge-category creation request is auto-approved whatever
the actor role: the row is created Approved with approved_by = creator
and approved_on = now, and the approvals table is untouched. -/
theorem createResource_knowledge_auto (data : CreateResourceRequest)
    (userRole : Option String) (now : Nat) (db : Db)
    (hcat : data.category = Category.knowledge) :
    createResource data userRole now db =
      ({ db with
          resources := db.resources ++
            [{ resource_id := db.nextResourceId
               file_name := data.file_name
               file_type := data.file_type
               file_size := data.file_size
               file_url := data.file_url
               category := data.category
               uploaded_by := data.uploaded_by
               uploaded_on := now
               description := data.description
               approval_status := ApprovalStatus.approved
               approved_by := some data.uploaded_by
               approved_on := some now }]
          nextResourceId := db.nextResourceId + 1 },
       db.nextResourceId) := by
  unfold createResource
  by_cases hrole : isAdminRole userRole = true <;> simp [hrole, hcat]

/-- Witness for C4-style auto approval of knowledge uploads (C3) for a
regular user: the approvals table stays empty. -/
theorem createResource_knowledge_auto_witness :
    (createResource { sampleCreateReq with category := Category.knowledge }
      (some "user") 3 emptyDb).1.approvals.length = 0 := by
  rw [createResource_knowledge_auto { sampleCreateReq with category := Category.knowledge }
    (some "user") 3 emptyDb (by decide)]
  decide

/-- C4 (amended, service level): when `createResource` is invoked with an
admin userRole the resource is created Approved with approved_by =
creator and approved_on = now, and no approval record is inserted. -/
theorem createResource_admin_auto (data : CreateResourceRequest)
    (userRole : Option String) (now : Nat) (db : Db)
    (hrole : isAdminRole userRole = true) :
    createResource data userRole now db =
      ({ db with
          resources := db.resources ++
            [{ resource_id := db.nextResourceId
               file_name := data.file_name
               file_type := data.file_type
               file_size := data.file_size
               file_url := data.file_url
               category := data.category
               uploaded_by := data.uploaded_by
               uploaded_on := now
               description := data.description
               approval_status := ApprovalStatus.approved
               approved_by := some data.uploaded_by
               approved_on := some now }]
          nextResourceId := db.nextResourceId + 1 },
       db.nextResourceId) := by
  unfold createResource
  simp [hrole]

/-- Witness for C4 (amended): a capacity_admin role given directly to the
service auto-approves and inserts no approval row. -/
theorem createResource_admin_auto_witness :
    (createResource sampleCreateReq (some "capacity_admin") 3 emptyDb).1.approvals.length
      = 0 := by
  rw [createResource_admin_auto sampleCreateReq (some "capacity_admin") 3 emptyDb
    (by decide)]
  decide

/-- A multer file record for an admin upload of a PDF. -/
def samplePdfFile : MulterFile :=
  { originalname := "a.pdf"
    mimetype := "application/pdf"
    filename := "a-1-2.pdf"
    size := 1024 }

/-- Counterexample to C4 as stated end to end: through the upload
endpoint the actor role is never forwarded to the service, so an upload
by an actor with role capacity_admin and category formulas is created
Pending, with one Pending approvals row — not Approved with none. -/
theorem uploadResource_admin_not_auto_approved :
    ((uploadResource (some "capacity_admin") samplePdfFile Category.formulas 7 none
        "1 KB" "http://h" 0 emptyDb).1.resources.map fun r => r.approval_status)
      = [ApprovalStatus.pending] ∧
    (uploadResource (some "capacity_admin") samplePdfFile Category.formulas 7 none
        "1 KB" "http://h" 0 emptyDb).1.approvals.length = 1 := by
  constructor <;> rfl

/-! ## C10: the general listing shows only Approved resources -/

/-- C10: whatever the filter combination, every row returned by
`getAllResources` has approval_status Approved; the dedicated pending
endpoint returns exactly the Pending rows (every returned row is
Pending, and every Pending row of the table is returned). -/
theorem getAllResources_only_approved (filters : ResourceFilters) (db : Db) :
    (∀ r ∈ getAllResources filters db, r.approval_status = ApprovalStatus.approved) ∧
    (∀ r ∈ getPendingResources db, r.approval_status = ApprovalStatus.pending) ∧
    (∀ r ∈ db.resources, r.approval_status = ApprovalStatus.pending →
        r ∈ getPendingResources db) := by
  refine ⟨?_, ?_, ?_⟩
  · intro r hr
    have h := (List.mem_filter.1 hr).2
    simp only [Bool.and_eq_true] at h
    exact of_decide_eq_true h.1.1.1
  · intro r hr
    exact of_decide_eq_true (List.mem_filter.1 hr).2
  · intro r hr hp
    exact List.mem_filter.2 ⟨hr, decide_eq_true hp⟩

/-- The database after an approver (id 9) approves the sample pending
resource. -/
def sampleApprovedDb : Db := approveResource 1 9 5 sampleDb

/-- Witness for C10: the approved row shows up Approved in the general
listing of the approved database, and the sample Pending row is Pending
in the pending endpoint of the original database. -/
theorem getAllResources_only_approved_witness :
    (decideResRow ApprovalStatus.approved 1 9 5 sampleResourceRow).approval_status
      = ApprovalStatus.approved ∧
    sampleResourceRow.approval_status = ApprovalStatus.pending := by
  constructor
  · exact (getAllResources_only_approved ⟨none, none, none⟩ sampleApprovedDb).1 _
      (by decide)
  · exact (getAllResources_only_approved ⟨none, none, none⟩ sampleDb).2.1 _
      (by decide)

/-! ## C9: the reject endpoint's approver_id validation -/

/-- Counterexample to C9: a non-numeric but non-empty `approver_id`
(the string "abc") is truthy, so the controller does not return 400; it
invokes `ResourceService.rejectResource` with the unvalidated value, and
that service immediately runs its UPDATE on the resources table. -/
theorem rejectController_nonNumeric_not_400 :
    rejectResourceController 1 (some (JsVal.vstr "abc")) =
      RejectOutcome.serviceCall 1 (JsVal.vstr "abc") ∧
    ¬ rejectResourceController 1 (some (JsVal.vstr "abc")) =
        RejectOutcome.badRequest := by
  decide

/-- C9 (amended): the reject controller returns 400 (and performs no
mutation, since the service is never reached) exactly when the body's
approver_id is missing or falsy (null, 0, or the empty string); any
truthy value, numeric or not, is forwarded to the service. -/
theorem rejectController_badRequest_iff (resourceId : Nat) (body : Option JsVal) :
    (rejectResourceController resourceId body = RejectOutcome.badRequest ↔
      (match body with
       | none => True
       | some v => truthy v = false)) ∧
    (∀ v, body = some v → truthy v = true →
      rejectResourceController resourceId body = RejectOutcome.serviceCall resourceId v) := by
  constructor
  · cases body with
    | none => simp [rejectResourceController]
    | some v =>
        by_cases t : truthy v = true
        · simp [rejectResourceController, t]
        · simp only [Bool.not_eq_true] at t
          simp [rejectResourceController, t]
  · intro v hv ht
    subst hv
    simp [rejectResourceController, ht]

/-- Witness for C9 (amended): the missing-body case yields 400, and a
truthy string is forwarded to the service. -/
theorem rejectController_badRequest_iff_witness :
    rejectResourceController 2 (some (JsVal.vstr "xyz")) =
      RejectOutcome.serviceCall 2 (JsVal.vstr "xyz") :=
  (rejectController_badRequest_iff 2 (some (JsVal.vstr "xyz"))).2
    (JsVal.vstr "xyz") rfl (by decide)

/-! ## C8: sortBy allow-list and totalPages -/

/-- Counterexample to C8: in the formula listing the raw sortBy value is
interpolated into ORDER BY with no allow-list check — a value outside
every allow-list is used verbatim instead of being replaced by the
default field. -/
theorem formulas_sortBy_not_sanitized :
    getAllFormulasSortField (some "file_url; DROP TABLE formulas") =
      "file_url; DROP TABLE formulas" ∧
    userValidSortFields.contains "file_url; DROP TABLE formulas" = false ∧
    ¬ ("file_url; DROP TABLE formulas" = "created_on") := by
  refine ⟨rfl, by decide, by decide⟩

/-- C8 (amended): in the user listing the effective sort field is always
inside the allow-list (out-of-list values silently fall back to
username), and in both listings the returned pagination object's
totalPages is the ceiling of total / limit: the least n with
total ≤ n * limit. -/
theorem users_sortBy_allowlist_totalPages (s : Option String) {α : Type}
    (rows : List α) (page limit : Nat) (hl : 0 < limit) :
    userValidSortFields.contains (getAllUsersSortField s) = true ∧
    (paginate rows page limit).2.totalPages = ceilDiv rows.length limit ∧
    rows.length ≤ ceilDiv rows.length limit * limit ∧
    (∀ m, rows.length ≤ m * limit → ceilDiv rows.length limit ≤ m) := by
  refine ⟨?_, rfl, ?_, ?_⟩
  · unfold getAllUsersSortField
    by_cases h : userValidSortFields.contains
        (if (s.getD "username") = "name" then "username" else s.getD "username") = true
    · simp only [if_pos h]
      exact h
    · simp only [Bool.not_eq_true] at h
      simp only [h, Bool.false_eq_true, if_false]
      decide
  · have hx := (Nat.div_lt_iff_lt_mul hl).1
      (Nat.lt_succ_self ((rows.length + limit - 1) / limit))
    rw [Nat.succ_mul] at hx
    unfold ceilDiv
    generalize (rows.length + limit - 1) / limit * limit = x at hx ⊢
    omega
  · intro m hm
    have hlt : rows.length + limit - 1 < (m + 1) * limit := by
      rw [Nat.succ_mul]
      omega
    exact Nat.lt_succ_iff.1 ((Nat.div_lt_iff_lt_mul hl).2 hlt)

/-- Witness for C8 (amended): a concrete out-of-list sortBy in the user
listing and a concrete pagination (25 rows, limit 10) with
totalPages = 3. -/
theorem users_sortBy_allowlist_totalPages_witness :
    userValidSortFields.contains (getAllUsersSortField (some "evil")) = true ∧
    (paginate (List.range 25) 2 10).2.totalPages = ceilDiv (List.range 25).length 10 := by
  have h := users_sortBy_allowlist_totalPages (some "evil") (List.range 25) 2 10
    (by decide)
  exact ⟨h.1, h.2.1⟩

/-! ## C7: transactional formula create and delete -/

/-- The component-insert loop either fails (some statement's oracle fired)
or appends exactly the expected component rows and advances the
component counter. -/
theorem insertComponents_spec (fid : Nat) (oracle : Nat → Bool)
    (comps : List CreateFormulaComponentRequest) (i : Nat) (db : Db) :
    insertComponents fid oracle comps i db = none ∨
    insertComponents fid oracle comps i db = some
      { db with
        formula_components := db.formula_components ++
          mkComponentRows fid db.nextComponentId comps
        nextComponentId := db.nextComponentId + comps.length } := by
  induction comps generalizing i db with
  | nil =>
      right
      cases db
      simp [insertComponents, mkComponentRows]
  | cons c rest ih =>
      by_cases h : oracle i = true
      · left
        simp [insertComponents, h]
      · have hstep : insertComponents fid oracle (c :: rest) i db =
            insertComponents fid oracle rest (i + 1)
              { db with
                formula_components := db.formula_components ++
                  [{ id := db.nextComponentId
                     formula_id := fid
                     chemical_name := c.chemical_name
                     percentage := c.percentage
                     cost_per_lb := c.cost_per_lb
                     hazard_class := c.hazard_class }]
                nextComponentId := db.nextComponentId + 1 } := by
          simp only [Bool.not_eq_true] at h
          simp [insertComponents, h]
        rw [hstep]
        rcases ih (i + 1) _ with h1 | h1
        · exact Or.inl h1
        · right
          rw [h1]
          cases db
          simp [mkComponentRows, List.append_assoc]
          omega

/-- C7: `createFormula` commits the parent row together with all of its
component rows, or rolls everything back (no partial formula persists);
`deleteFormula` either rolls back untouched or removes the formula and
every one of its component rows; and a delete never creates orphans: if
every component row had a parent formula before, the same holds after. -/
theorem formula_create_delete_atomic (data : CreateFormulaRequest) (fid : Nat)
    (oracle oracle2 : Nat → Bool) (dbc dbd : Db)
    (hno : ∀ c ∈ dbd.formula_components, ∃ f ∈ dbd.formulas, f.formula_id = c.formula_id) :
    (((createFormula data oracle dbc).2 = none ∧ (createFormula data oracle dbc).1 = dbc) ∨
     ((createFormula data oracle dbc).2 = some dbc.nextFormulaId ∧
      (createFormula data oracle dbc).1.formulas =
        dbc.formulas ++ [mkFormulaRow dbc.nextFormulaId data] ∧
      (createFormula data oracle dbc).1.formula_components =
        dbc.formula_components ++
          mkComponentRows dbc.nextFormulaId dbc.nextComponentId data.components)) ∧
    ((deleteFormula fid oracle2 dbd).1 = dbd ∨
     ((∀ f ∈ (deleteFormula fid oracle2 dbd).1.formulas, ¬ f.formula_id = fid) ∧
      (∀ c ∈ (deleteFormula fid oracle2 dbd).1.formula_components, ¬ c.formula_id = fid))) ∧
    (∀ c ∈ (deleteFormula fid oracle2 dbd).1.formula_components,
        ∃ f ∈ (deleteFormula fid oracle2 dbd).1.formulas, f.formula_id = c.formula_id) := by
  refine ⟨?_, ?_, ?_⟩
  · unfold createFormula
    by_cases h0 : oracle 0 = true
    · left
      simp [h0]
    · simp only [Bool.not_eq_true] at h0
      rcases insertComponents_spec dbc.nextFormulaId oracle data.components 1
          { dbc with formulas := dbc.formulas ++ [mkFormulaRow dbc.nextFormulaId data]
                     nextFormulaId := dbc.nextFormulaId + 1 } with h1 | h1
      · left
        simp [h0, h1]
      · right
        simp [h0, h1]
  · unfold deleteFormula
    by_cases h : (oracle2 0 || oracle2 1) = true
    · left
      simp [h]
    · right
      simp only [Bool.not_eq_true] at h
      simp only [h, Bool.false_eq_true, if_false]
      constructor
      · intro f hf
        exact of_decide_eq_true (List.mem_filter.1 hf).2
      · intro c hc
        exact of_decide_eq_true (List.mem_filter.1 hc).2
  · intro c hc
    unfold deleteFormula at hc ⊢
    by_cases h : (oracle2 0 || oracle2 1) = true
    · simp only [h, if_true] at hc ⊢
      exact hno c hc
    · simp only [Bool.not_eq_true] at h
      simp only [h, Bool.false_eq_true, if_false] at hc ⊢
      have hmem := List.mem_filter.1 hc
      rcases hno c hmem.1 with ⟨f, hf, hfid⟩
      refine ⟨f, List.mem_filter.2 ⟨hf, ?_⟩, hfid⟩
      have hcfid := of_decide_eq_true hmem.2
      rw [hfid]
      exact decide_eq_true hcfid

/-- The formula creation request of the spec's test scenario. -/
def sampleFormulaReq : CreateFormulaRequest :=
  { formula_name := "Test A"
    created_by := 1
    density := (11 : Rat) / 10
    total_cost := 100
    margin := 10
    container_cost := 5
    status := none
    components := [{ chemical_name := "NaCl"
                     percentage := 50
                     cost_per_lb := 2
                     hazard_class := "Class 3" }] }

/-- Witness for C7: with no SQL failure, creating the sample formula on
the fresh database commits the parent row and its one component row. -/
theorem formula_create_delete_atomic_witness :
    ((createFormula sampleFormulaReq (fun _ => false) emptyDb).2 = none ∧
      (createFormula sampleFormulaReq (fun _ => false) emptyDb).1 = emptyDb) ∨
    ((createFormula sampleFormulaReq (fun _ => false) emptyDb).2 =
        some emptyDb.nextFormulaId ∧
      (createFormula sampleFormulaReq (fun _ => false) emptyDb).1.formulas =
        emptyDb.formulas ++ [mkFormulaRow emptyDb.nextFormulaId sampleFormulaReq] ∧
      (createFormula sampleFormulaReq (fun _ => false) emptyDb).1.formula_components =
        emptyDb.formula_components ++
          mkComponentRows emptyDb.nextFormulaId emptyDb.nextComponentId
            sampleFormulaReq.components) :=
  (formula_create_delete_atomic sampleFormulaReq 1 (fun _ => false) (fun _ => false)
    emptyDb emptyDb (by decide)).1

/-! ## C5, C6: invariants over the reachable states -/

/-- Number of Pending approvals rows for a given entity. -/
def countPendingFor (db : Db) (ty : String) (id : Nat) : Nat :=
  db.approvals.countP fun a =>
    decide (a.entity_type = ty ∧ a.entity_id = id ∧ a.decision = Decision.pending)

/-- The invariant of C5: at most one Pending approvals row per
(entity_type, entity_id). -/
def AtMostOnePending (db : Db) : Prop :=
  ∀ ty id, countPendingFor db ty id ≤ 1

/-- Shape invariant of the approvals table under the resource workflow:
every row was inserted by `createResource` (entity_type Resource and an
already-allocated entity id) and entity ids are pairwise distinct. -/
def ApprovalsWF (db : Db) : Prop :=
  (∀ a ∈ db.approvals, a.entity_type = "Resource" ∧ a.entity_id < db.nextResourceId) ∧
  db.approvals.Pairwise fun a b => ¬ a.entity_id = b.entity_id

/-- The invariant of C6: no approvals row carries the Returned decision. -/
def NoReturned (db : Db) : Prop :=
  ∀ a ∈ db.approvals, ¬ a.decision = Decision.returned

/-- A list of approval rows with pairwise distinct entity ids satisfies
any entity-id-pinning predicate at most once. -/
theorem countP_le_one_of_key {l : List ApprovalRow} {id : Nat}
    (hp : l.Pairwise fun a b => ¬ a.entity_id = b.entity_id)
    (p : ApprovalRow → Bool) (himp : ∀ a, p a = true → a.entity_id = id) :
    l.countP p ≤ 1 := by
  induction l with
  | nil => simp [List.countP_nil]
  | cons a l ih =>
      rcases List.pairwise_cons.1 hp with ⟨ha, hl⟩
      by_cases hpa : p a = true
      · have hz : l.countP p = 0 := by
          rw [List.countP_eq_zero]
          intro b hb hpb
          exact ha b hb (by rw [himp a hpa, himp b hpb])
        rw [List.countP_cons_of_pos p l hpa, hz]
      · rw [List.countP_cons_of_neg p l hpa]
        exact ih hl

/-- Either branch of `createResource`: auto-approved with the approvals
table untouched, or Pending with exactly one new Pending approvals row
for the freshly allocated resource id. -/
theorem createResource_shape (data : CreateResourceRequest) (userRole : Option String)
    (now : Nat) (db : Db) :
    (createResource data userRole now db).1 =
      { db with
        resources := db.resources ++
          [{ resource_id := db.nextResourceId
             file_name := data.file_name
             file_type := data.file_type
             file_size := data.file_size
             file_url := data.file_url
             category := data.category
             uploaded_by := data.uploaded_by
             uploaded_on := now
             description := data.description
             approval_status := ApprovalStatus.approved
             approved_by := some data.uploaded_by
             approved_on := some now }]
        nextResourceId := db.nextResourceId + 1 } ∨
    (createResource data userRole now db).1 =
      { db with
        resources := db.resources ++
          [{ resource_id := db.nextResourceId
             file_name := data.file_name
             file_type := data.file_type
             file_size := data.file_size
             file_url := data.file_url
             category := data.category
             uploaded_by := data.uploaded_by
             uploaded_on := now
             description := data.description
             approval_status := ApprovalStatus.pending
             approved_by := none
             approved_on := none }]
        approvals := db.approvals ++
          [{ approval_id := db.nextApprovalId
             entity_type := "Resource"
             entity_id := db.nextResourceId
             approver_id := data.uploaded_by
             decision := Decision.pending
             decision_date := now
             comments := some ("Resource upload pending approval: " ++ data.file_name) }]
        nextResourceId := db.nextResourceId + 1
        nextApprovalId := db.nextApprovalId + 1 } := by
  unfold createResource
  by_cases hA : isAdminRole userRole = true
  · left
    simp [hA]
  · simp only [Bool.not_eq_true] at hA
    by_cases hK : data.category = Category.knowledge
    · left
      simp [hA, hK]
    · right
      simp [hA, hK]

/-- Mapping an entity-field-preserving row function over the approvals
list preserves the shape invariant components. -/
theorem wf_components_map (f : ApprovalRow → ApprovalRow)
    (hty : ∀ a, (f a).entity_type = a.entity_type)
    (hid : ∀ a, (f a).entity_id = a.entity_id)
    {l : List ApprovalRow} {bound : Nat}
    (h1 : ∀ a ∈ l, a.entity_type = "Resource" ∧ a.entity_id < bound)
    (hp : l.Pairwise fun a b => ¬ a.entity_id = b.entity_id) :
    (∀ a ∈ l.map f, a.entity_type = "Resource" ∧ a.entity_id < bound) ∧
    (l.map f).Pairwise fun a b => ¬ a.entity_id = b.entity_id := by
  constructor
  · intro a ha
    rcases List.mem_map.1 ha with ⟨b, hb, rfl⟩
    rcases h1 b hb with ⟨hbt, hbi⟩
    exact ⟨by rw [hty]; exact hbt, by rw [hid]; exact hbi⟩
  · rw [List.pairwise_map]
    refine hp.imp ?_
    intro a b hab
    rw [hid, hid]
    exact hab

/-- The row function of `approveResource` / `rejectResource` preserves
the entity columns. -/
theorem decideAppRow_entity (d : Decision) (rid aid now : Nat) (a : ApprovalRow) :
    (decideAppRow d rid aid now a).entity_type = a.entity_type ∧
    (decideAppRow d rid aid now a).entity_id = a.entity_id := by
  by_cases h : a.entity_type = "Resource" ∧ a.entity_id = rid ∧ a.decision = Decision.pending <;>
    simp [decideAppRow, h]

/-- The row function of `updateApproval` preserves the entity columns. -/
theorem updateAppRow_entity (aid : Nat) (data : UpdateApprovalRequest) (now : Nat)
    (a : ApprovalRow) :
    (updateAppRow aid data now a).entity_type = a.entity_type ∧
    (updateAppRow aid data now a).entity_id = a.entity_id := by
  by_cases h : a.approval_id = aid <;> simp [updateAppRow, h]

/-- The shape invariant holds in every state reachable without the
generic `POST /api/approvals` insert. -/
theorem wf_reachable (db : Db)
    (h : ReachableVia (fun op => ¬ op.isGenericApprovalInsert) db) :
    ApprovalsWF db := by
  induction h with
  | init =>
      exact ⟨fun a ha => absurd ha (List.not_mem_nil a), List.Pairwise.nil⟩
  | @step db hdb op hop ih =>
      cases op with
      | createRes data userRole now =>
          rcases createResource_shape data userRole now db with hs | hs
          · show ApprovalsWF (createResource data userRole now db).1
            rw [hs]
            refine ⟨?_, ih.2⟩
            intro a ha
            rcases ih.1 a ha with ⟨h1, h2⟩
            exact ⟨h1, Nat.lt_succ_of_lt h2⟩
          · show ApprovalsWF (createResource data userRole now db).1
            rw [hs]
            constructor
            · intro a ha
              rcases List.mem_append.1 ha with hold | hnew
              · rcases ih.1 a hold with ⟨h1, h2⟩
                exact ⟨h1, Nat.lt_succ_of_lt h2⟩
              · rcases List.mem_singleton.1 hnew with rfl
                exact ⟨rfl, Nat.lt_succ_self _⟩
            · rw [List.pairwise_append]
              refine ⟨ih.2, List.pairwise_singleton _ _, ?_⟩
              intro a ha b hb
              rcases List.mem_singleton.1 hb with rfl
              have := (ih.1 a ha).2
              intro heq
              rw [heq] at this
              exact Nat.lt_irrefl _ this
      | approveRes rid aid now =>
          exact wf_components_map _ (fun a => (decideAppRow_entity _ rid aid now a).1)
            (fun a => (decideAppRow_entity _ rid aid now a).2) ih.1 ih.2
      | rejectRes rid aid now =>
          exact wf_components_map _ (fun a => (decideAppRow_entity _ rid aid now a).1)
            (fun a => (decideAppRow_entity _ rid aid now a).2) ih.1 ih.2
      | updateRes rid data =>
          exact ih
      | deleteRes rid =>
          exact ih
      | createApp data now =>
          exact absurd trivial hop
      | updateApp aid data now =>
          exact wf_components_map _ (fun a => (updateAppRow_entity aid data now a).1)
            (fun a => (updateAppRow_entity aid data now a).2) ih.1 ih.2
      | deleteApp aid =>
          refine ⟨?_, ih.2.sublist (List.filter_sublist _)⟩
          intro a ha
          exact ih.1 a (List.mem_of_mem_filter ha)

/-- A request to the generic approvals endpoint with the decision field
omitted (defaults to Pending). -/
def dupPendingReq : CreateApprovalRequest :=
  { entity_type := "Formula"
    entity_id := 1
    approver_id := 1
    decision := none
    comments := none }

/-- The state after POSTing the same approval request twice. -/
def dupPendingDb : Db :=
  applyOp (Op.createApp dupPendingReq 0) (applyOp (Op.createApp dupPendingReq 0) emptyDb)

/-- Counterexample to C5 as stated: the state obtained by two identical
`POST /api/approvals` calls is reachable through the system's operations
and holds two Pending approvals rows for the same (Formula, 1) entity —
`ApprovalService.createApproval` never checks for an existing Pending
row. -/
theorem pending_invariant_violated :
    ReachableVia (fun _ => True) dupPendingDb ∧
    countPendingFor dupPendingDb "Formula" 1 = 2 := by
  constructor
  · exact ReachableVia.step
      (ReachableVia.step ReachableVia.init (Op.createApp dupPendingReq 0) trivial)
      (Op.createApp dupPendingReq 0) trivial
  · decide

/-- C5 (amended): in every state reachable through the resource workflow
operations (resource create/approve/reject/update/delete, approval
update/delete) — that is, excluding the generic `POST /api/approvals`
insert — there is at most one Pending approvals row per
(entity_type, entity_id). -/
theorem atMostOnePending_reachable (db : Db)
    (h : ReachableVia (fun op => ¬ op.isGenericApprovalInsert) db) :
    AtMostOnePending db := by
  intro ty id
  exact countP_le_one_of_key (wf_reachable db h).2 _
    (fun a hpa => (of_decide_eq_true hpa).2.1)

/-- Witness for C5 (amended): the invariant holds in the concrete state
reached by one regular-user resource creation. -/
theorem atMostOnePending_reachable_witness :
    AtMostOnePending (applyOp (Op.createRes sampleCreateReq (some "user") 0) emptyDb) :=
  atMostOnePending_reachable _
    (ReachableVia.step ReachableVia.init (Op.createRes sampleCreateReq (some "user") 0)
      (by simp [Op.isGenericApprovalInsert]))

/-- A request to the generic approvals endpoint carrying the Returned
decision. -/
def returnedReq : CreateApprovalRequest :=
  { entity_type := "Formula"
    entity_id := 1
    approver_id := 1
    decision := some Decision.returned
    comments := none }

/-- The state after POSTing an approval with decision Returned. -/
def returnedDb : Db := applyOp (Op.createApp returnedReq 0) emptyDb

/-- Counterexample to C6 as stated: a single `POST /api/approvals` call
with decision "Returned" is a sequence of API calls after which an
approvals row has decision Returned — `createApproval` stores the
client-supplied decision unvalidated. -/
theorem returned_decision_reachable :
    ReachableVia (fun _ => True) returnedDb ∧
    (returnedDb.approvals.map fun a => a.decision) = [Decision.returned] := by
  exact ⟨ReachableVia.step ReachableVia.init (Op.createApp returnedReq 0) trivial,
    by decide⟩

/-- C6 (amended): no operation of the program itself produces a Returned
decision — in every state reachable by operations whose client input does
not explicitly carry decision = Returned (through the generic approvals
create/update endpoints, which store the client's decision verbatim), no
approvals row has decision Returned. -/
theorem noReturned_reachable (db : Db)
    (h : ReachableVia (fun op => ¬ op.suppliesReturned) db) :
    NoReturned db := by
  induction h with
  | init =>
      exact fun a ha => absurd ha (List.not_mem_nil a)
  | @step db hdb op hop ih =>
      cases op with
      | createRes data userRole now =>
          intro a ha
          rcases createResource_shape data userRole now db with hs | hs <;>
            rw [show applyOp (Op.createRes data userRole now) db =
              (createResource data userRole now db).1 from rfl, hs] at ha
          · exact ih a ha
          · rcases List.mem_append.1 ha with hold | hnew
            · exact ih a hold
            · rcases List.mem_singleton.1 hnew with rfl
              intro hc
              exact Decision.noConfusion hc
      | approveRes rid aid now =>
          intro a ha
          rcases List.mem_map.1 ha with ⟨b, hb, rfl⟩
          by_cases hm : b.entity_type = "Resource" ∧ b.entity_id = rid ∧
              b.decision = Decision.pending
          · simp [decideAppRow, hm]
          · simpa [decideAppRow, hm] using ih b hb
      | rejectRes rid aid now =>
          intro a ha
          rcases List.mem_map.1 ha with ⟨b, hb, rfl⟩
          by_cases hm : b.entity_type = "Resource" ∧ b.entity_id = rid ∧
              b.decision = Decision.pending
          · simp [decideAppRow, hm]
          · simpa [decideAppRow, hm] using ih b hb
      | updateRes rid data =>
          exact ih
      | deleteRes rid =>
          exact ih
      | createApp data now =>
          intro a ha
          rcases List.mem_append.1 ha with hold | hnew
          · exact ih a hold
          · rcases List.mem_singleton.1 hnew with rfl
            show ¬ data.decision.getD Decision.pending = Decision.returned
            cases hd : data.decision with
            | none => intro hc; exact Decision.noConfusion hc
            | some d =>
                intro hc
                apply hop
                show data.decision = some Decision.returned
                rw [hd]
                simp only [Option.getD_some] at hc
                rw [hc]
      | updateApp aid data now =>
          intro a ha
          rcases List.mem_map.1 ha with ⟨b, hb, rfl⟩
          by_cases hm : b.approval_id = aid
          · simp only [updateAppRow, hm, if_pos]
            intro hc
            exact hop hc
          · simpa [updateAppRow, hm] using ih b hb
      | deleteApp aid =>
          intro a ha
          exact ih a (List.mem_of_mem_filter ha)

/-- Witness for C6 (amended): the pending row created by a decisionless
`POST /api/approvals` is not Returned. -/
theorem noReturned_reachable_witness :
    ¬ ({ approval_id := 1
         entity_type := "Formula"
         entity_id := 1
         approver_id := 1
         decision := Decision.pending
         decision_date := 0
         comments := none } : ApprovalRow).decision = Decision.returned :=
  noReturned_reachable _
    (ReachableVia.step ReachableVia.init (Op.createApp dupPendingReq 0)
      (by simp [Op.suppliesReturned, dupPendingReq]))
    _ (by decide)

end CapacityChem
